import Mathlib

/-!
Shallow embedding of the `nomad_drain` library (Rust) and proofs about it.

The embedding follows the repository sources:
- `src/nomad_drain/src/lib.rs` (the `Secret` wrapper),
- `src/nomad_drain/src/error.rs` (`Error`),
- `src/nomad_drain/src/vault.rs` (Vault response envelope handling),
- `src/nomad_drain/src/nomad.rs` (Nomad client: blocking requests, indexed
  responses, node search and the drain monitor loop),
- `src/nomad_drain/src/aws.rs` (the Vault AWS IAM login payload builder).

Rust machine integers (`u64`, `u128`) are modelled as `Nat` (none of the
embedded code performs wrapping arithmetic on them; `u64` parsing checks the
bound explicitly). `HashMap<String, _>` values are modelled as association
lists with unique keys and first-match lookup. Fallible Rust functions
returning `Result<T, Error>` become `Except Error T`. Network calls are
modelled by passing the sequence (or map) of responses the process would
observe as an explicit argument.
-/

deriving instance DecidableEq for Except

namespace NomadDrain

/-- A wrapper around a String with custom implementations of Display and Debug
to not leak secrets during logging (`src/nomad_drain/src/lib.rs`, `Secret`). -/
structure Secret where
  val : String
deriving DecidableEq

/-- The `fmt::Display` implementation for `Secret`: always renders the fixed
redaction marker, ignoring the wrapped string. -/
def Secret.displayFmt (_ : Secret) : String := "***"

/-- The `fmt::Debug` implementation for `Secret`: always renders the fixed
redaction marker, ignoring the wrapped string. -/
def Secret.debugFmt (_ : Secret) : String := "***"

/-- Error type of the library (`src/nomad_drain/src/error.rs`). Each variant
carries the textual rendering of the wrapped lower-layer error where the
original wraps a foreign error value. -/
inductive Error where
  | credentialsError (msg : String)
  | reqwestError (msg : String)
  | headersErrors (msg : String)
  | urlParseError (msg : String)
  | invalidVaultResponse (reason : String)
  | nomadNodeNotFound (instanceId : String)
  | parseIntError (msg : String)
deriving DecidableEq

namespace Vault

/-- Type of token from Vault (`src/nomad_drain/src/vault.rs`, `TokenType`). -/
inductive TokenType where
  | service
  | batch
deriving DecidableEq

/-- Authentication data from Vault (`vault.rs`, `Authentication`). -/
structure Authentication where
  clientToken : Secret
  accessor : String
  policies : List String
  tokenPolicies : List String
  metadata : List (String × String)
  leaseDuration : Nat
  renewable : Bool
  entityId : String
  tokenType : TokenType
deriving DecidableEq

/-- Vault general response data (`vault.rs`, `ResponseData`). The `data` map
(`HashMap<String, String>` in the source) is an association list with unique
keys. -/
structure ResponseData where
  requestId : String
  leaseId : String
  renewable : Bool
  leaseDuration : Nat
  warnings : Option (List String)
  auth : Option Authentication
  data : Option (List (String × String))
deriving DecidableEq

/-- Generic Vault response (`vault.rs`, `Response`): an untagged union of an
error envelope and a success envelope. -/
inductive Response where
  | error (errors : List String)
  | response (d : ResponseData)
deriving DecidableEq

/-- Key lookup in a `HashMap<String, String>` modelled as an association list
(first matching key wins; maps built from JSON have unique keys). -/
def mapGet (key : String) : List (String × String) → Option String
  | [] => none
  | (k, v) :: rest => if k = key then some v else mapGet key rest

/-- The token extraction performed by `Client::login_aws_iam`
(`vault.rs` lines 190-200) on the parsed response: an error envelope becomes
`InvalidVaultResponse` joining the error strings with "; "; a success envelope
with `auth` present yields the client token; a success envelope without `auth`
becomes `InvalidVaultResponse("Missing authentication data")`. -/
def loginAwsIamToken : Response → Except Error Secret
  | .error errors => .error (.invalidVaultResponse (String.intercalate "; " errors))
  | .response d =>
    match d.auth with
    | some auth => .ok auth.clientToken
    | none => .error (.invalidVaultResponse "Missing authentication data")

/-- The token extraction performed by `Client::get_nomad_token`
(`vault.rs` lines 241-254) on the parsed response: an error envelope becomes
`InvalidVaultResponse` joining the error strings with "; "; a success envelope
with a `data` map requires the `secret_id` key (`data.remove("secret_id")`),
whose absence is `InvalidVaultResponse("Missing Nomad token from response")`;
a success envelope without `data` is
`InvalidVaultResponse("Missing secrets data")`. -/
def getNomadTokenFromResponse : Response → Except Error Secret
  | .error errors => .error (.invalidVaultResponse (String.intercalate "; " errors))
  | .response d =>
    match d.data with
    | some data =>
      match mapGet "secret_id" data with
      | some v => .ok ⟨v⟩
      | none => .error (.invalidVaultResponse "Missing Nomad token from response")
    | none => .error (.invalidVaultResponse "Missing secrets data")

end Vault

namespace Nomad

/-- Nomad responses that support blocking requests
(`src/nomad_drain/src/nomad.rs`, `BlockingResponse`). `index` is a `u64`. -/
structure BlockingResponse (T : Type) where
  index : Nat
  data : T
deriving DecidableEq

/-- Conversion of a header value to a string as performed by
`reqwest::header::HeaderValue::to_str` (used at `nomad.rs` line 618): fails
unless every byte is visible ASCII or space. -/
def headerToStr (s : String) : Except Error String :=
  if s.all (fun c => 32 ≤ c.toNat && c.toNat < 127) then .ok s
  else .error (.headersErrors s)

/-- Parsing of a `u64` from a string as performed by `str::parse::<u64>`
(used at `nomad.rs` line 618): an optional leading plus sign, then decimal
digits, rejecting values outside the `u64` range. -/
def parseU64 (s : String) : Except Error Nat :=
  let digits := if s.startsWith "+" then s.drop 1 else s
  match digits.toNat? with
  | some n => if n < 2 ^ 64 then .ok n else .error (.parseIntError s)
  | none => .error (.parseIntError s)

/-- `Client::make_indexed_response` (`nomad.rs` lines 612-622): reads the
`X-Nomad-Index` response header; when absent the index is `0`, otherwise the
header value is converted to a string and parsed as a `u64` (either step can
fail). `indexHeader` is the result of `response.headers().get("X-Nomad-Index")`. -/
def makeIndexedResponse {T : Type} (indexHeader : Option String) (data : T) :
    Except Error (BlockingResponse T) :=
  match indexHeader with
  | none => .ok ⟨0, data⟩
  | some v => do
    let s ← headerToStr v
    let index ← parseU64 s
    .ok ⟨index, data⟩

/-- Node status (`nomad.rs`, `NodeStatus`). -/
inductive NodeStatus where
  | initializing
  | ready
  | down
deriving DecidableEq

/-- Node eligibility for scheduling (`nomad.rs`, `NodeEligibility`). -/
inductive NodeEligibility where
  | eligible
  | ineligible
deriving DecidableEq

/-- Specification for draining (`nomad.rs`, `DrainSpec`). -/
structure DrainSpec where
  deadline : Nat
  ignoreSystemJobs : Bool
deriving DecidableEq

/-- The `Default` implementation for `DrainSpec`: one hour deadline, system
jobs not ignored. -/
def DrainSpec.defaultSpec : DrainSpec := ⟨3600, false⟩

/-- Drain strategy (`nomad.rs`, `DrainStrategy`). The `force_deadline`
timestamp (`chrono::DateTime<Utc>`) is modelled as an integer number of
nanoseconds since the epoch; no embedded code computes with it. -/
structure DrainStrategy where
  drainSpec : Option DrainSpec
  forceDeadline : Int
deriving DecidableEq

/-- Node details in a list of nodes (`nomad.rs`, `NodesInList`). The
`modify_index` field is a `u128`. -/
structure NodesInList where
  address : String
  datacenter : String
  drain : Bool
  id : String
  name : String
  status : NodeStatus
  nodeClass : String
  schedulingEligibility : NodeEligibility
  version : String
  modifyIndex : Nat
  statusDescription : String
deriving DecidableEq

/-- Node data returned from the Nomad API (`nomad.rs`, `Node`). The
`attributes` map is an association list with unique keys. -/
structure Node where
  id : String
  name : String
  attributes : List (String × String)
  computedClass : String
  createIndex : Nat
  datacenter : String
  drain : Bool
  drainStrategy : Option DrainStrategy
  httpAddress : String
  modifyIndex : Nat
  schedulingEligibility : NodeEligibility
  secretId : String
  status : NodeStatus
  statusDescription : String
  statusUpdatedAt : Nat
  tlsEnabled : Bool
  nodeClass : Option String
deriving DecidableEq

/-- An HTTP request as assembled by the Nomad client: method, URL, headers and
query parameters in the order they are attached. -/
structure Request where
  method : String
  url : String
  headers : List (String × String)
  query : List (String × String)
deriving DecidableEq

/-- The state of the Nomad API client (`nomad.rs`, `Client`): server address
and optional token. The HTTP transport itself is outside the model. -/
structure Client where
  address : String
  token : Option Secret
deriving DecidableEq

/-- `Client::add_nomad_token_header` (`nomad.rs` lines 586-591): attaches the
`X-Nomad-Token` header when the client holds a token. -/
def addNomadTokenHeader (c : Client) (r : Request) : Request :=
  match c.token with
  | some token => { r with headers := r.headers ++ [("X-Nomad-Token", token.val)] }
  | none => r

/-- `Client::add_blocking_requests` (`nomad.rs` lines 593-610): when a wait
index is given it is attached as the `index` query parameter, and only then an
optionally supplied wait timeout is attached as the `wait` query parameter in
seconds; when the wait index is absent the request is returned unchanged.
`waitTimeout` is the duration in whole seconds (`Duration::as_secs`). -/
def addBlockingRequests (r : Request) (waitIndex : Option Nat)
    (waitTimeout : Option Nat) : Request :=
  match waitIndex with
  | some index =>
    let r := { r with query := r.query ++ [("index", toString index)] }
    match waitTimeout with
    | none => r
    | some timeout => { r with query := r.query ++ [("wait", toString timeout ++ "s")] }
  | none => r

/-- `Client::build_node_details_request` (`nomad.rs` lines 376-387): a GET to
`{address}/v1/node/{node_id}` with the token header and blocking query
parameters attached. -/
def buildNodeDetailsRequest (c : Client) (nodeId : String)
    (waitIndex : Option Nat) (waitTimeout : Option Nat) : Request :=
  addBlockingRequests
    (addNomadTokenHeader c
      { method := "GET", url := c.address ++ "/v1/node/" ++ nodeId,
        headers := [], query := [] })
    waitIndex waitTimeout

/-- Outcome of a run of the drain monitor loop against a finite sequence of
fetch results: `outcome` is `none` when the sequence was exhausted with the
loop still running, otherwise the value the loop ends with; `fetchArgs`
records, for each node-details fetch the loop performed, the
`(wait_index, wait_timeout)` argument pair it passed. -/
structure MonitorRun where
  outcome : Option (Except Error Unit)
  fetchArgs : List (Option Nat × Option Nat)
deriving DecidableEq

/-- The loop body of `Client::monitor_node_drain` (`nomad.rs` lines 552-581),
driven by the finite list of node-details fetch results the scheduler would
return. Each iteration fetches with the current `wait_index` and the fixed
`wait_timeout`; a fetch error propagates; a node without a drain strategy
breaks the loop successfully; otherwise the strategy bookkeeping is updated
(`strategy`, `strategy_changed` affect logging only), `wait_index` becomes the
fetched change index, and the loop continues. -/
def monitorLoop (waitTimeout : Nat) :
    List (Except Error (BlockingResponse Node)) →
    Option Nat → Option DrainStrategy → Bool → MonitorRun
  | [], _, _, _ => ⟨none, []⟩
  | fetch :: rest, waitIndex, strategy, strategyChanged =>
    match fetch with
    | .error e => ⟨some (.error e), [(waitIndex, some waitTimeout)]⟩
    | .ok node =>
      if node.data.drainStrategy.isNone then
        ⟨some (.ok ()), [(waitIndex, some waitTimeout)]⟩
      else
        have _ := strategy
        have _ := strategyChanged
        let run := monitorLoop waitTimeout rest (some node.index)
          node.data.drainStrategy true
        ⟨run.outcome, (waitIndex, some waitTimeout) :: run.fetchArgs⟩

/-- `Client::monitor_node_drain` (`nomad.rs` lines 531-584): resolves the wait
timeout (default 300 seconds), then runs the monitoring loop starting with no
wait index, no recorded strategy and `strategy_changed = false`. -/
def monitorNodeDrain (fetches : List (Except Error (BlockingResponse Node)))
    (waitTimeout : Option Nat) : MonitorRun :=
  let wt := match waitTimeout with
    | some duration => duration
    | none => 300
  monitorLoop wt fetches none none false

/-- A fetch result the drain monitor loop continues through: a successful
fetch of a node that still carries a drain strategy (any status). -/
def stillDraining (f : Except Error (BlockingResponse Node)) : Bool :=
  match f with
  | .ok b => b.data.drainStrategy.isSome
  | .error _ => false

/-- The match predicate used by `Client::find_node_by_instance_id`
(`nomad.rs` lines 431-441) on each node-details fetch result: a successful
fetch matches when the `unique.platform.aws.instance-id` attribute equals the
queried instance id; an errored fetch never matches. -/
def detailsMatch (instanceId : String)
    (details : Except Error (BlockingResponse Node)) : Bool :=
  match details with
  | .ok details =>
    match Vault.mapGet "unique.platform.aws.instance-id" details.data.attributes with
    | some id => id = instanceId
    | none => false
  | .error _ => false

/-- The fused `map`/`find` traversal inside `Client::find_node_by_instance_id`:
walks the ready nodes in listing order, fetches details for each
(`details` maps a node id to the fetch result) and stops at the first result
satisfying the match predicate. Also returns the ids whose details were
fetched, in order (the Rust iterator is lazy, so nodes after the first match
are never fetched). -/
def findLoop (details : String → Except Error (BlockingResponse Node))
    (instanceId : String) :
    List NodesInList →
    Option (Except Error (BlockingResponse Node)) × List String
  | [] => (none, [])
  | node :: rest =>
    let d := details node.id
    if detailsMatch instanceId d then (some d, [node.id])
    else
      let r := findLoop details instanceId rest
      (r.1, node.id :: r.2)

/-- `Client::find_node_by_instance_id` (`nomad.rs` lines 420-451), driven by
the node listing result and the node-details fetch results. The listing result
propagates its error; otherwise the listed nodes are filtered to
`status == Ready`, details are fetched sequentially until the first match, a
missing match becomes `NomadNodeNotFound { instance_id }`, and the found fetch
result is returned (the source `??` would propagate an error found here, but
the match predicate is false on errors, so a found result is always `Ok`).
Also returns the ids whose details were fetched, in order. -/
def findNodeByInstanceId (details : String → Except Error (BlockingResponse Node))
    (instanceId : String)
    (nodes : Except Error (BlockingResponse (List NodesInList))) :
    Except Error (BlockingResponse Node) × List String :=
  match nodes with
  | .error e => (.error e, [])
  | .ok nodes =>
    let ready := nodes.data.filter (fun node => node.status = NodeStatus.ready)
    let r := findLoop details instanceId ready
    match r.1 with
    | none => (.error (.nomadNodeNotFound instanceId), r.2)
    | some (.ok found) => (.ok found, r.2)
    | some (.error e) => (.error e, r.2)

end Nomad

namespace Aws

/-- AWS credentials as resolved by the credential chain
(`rusoto_core::credential::AwsCredentials`): access key id, secret key and an
optional session token. Expiry is never inspected by the embedded code. -/
structure AwsCredentials where
  key : String
  secret : String
  token : Option String
deriving DecidableEq

/-- `rusoto_core::Region`: the built-in region variants are collapsed to the
name string they carry (`standard`), and `Region::Custom` keeps its name and
endpoint. The China-partition variants, which the signing library maps to a
`.amazonaws.com.cn` host suffix, are outside this model; every theorem about
standard regions quantifies over the `.amazonaws.com` partition. -/
inductive Region where
  | standard (name : String)
  | custom (name : String) (endpoint : String)
deriving DecidableEq

/-- `Region::name`. -/
def Region.name : Region → String
  | .standard n => n
  | .custom n _ => n

/-- ASCII lower-casing of a string (`str::to_ascii_lowercase` on header
names). -/
def toLowerStr (s : String) : String := ⟨s.data.map Char.toLower⟩

/-- Characters after the first "://" separator, when present. -/
def afterSchemeSep : List Char → Option (List Char)
  | ':' :: '/' :: '/' :: rest => some rest
  | _ :: rest => afterSchemeSep rest
  | [] => none

/-- Characters before the first "/". -/
def takeUntilSlash : List Char → List Char
  | [] => []
  | '/' :: _ => []
  | c :: rest => c :: takeUntilSlash rest

/-- `rusoto_signature` hostname extraction for custom endpoints: drop a
leading scheme (everything up to and including the first "://") and anything
from the first "/" on. -/
def extractHostname (endpoint : String) : String :=
  let unschemed :=
    match afterSchemeSep endpoint.data with
    | some rest => rest
    | none => endpoint.data
  ⟨takeUntilSlash unschemed⟩

/-- Whether the first list is a leading segment of the second. -/
def leadsChars : List Char → List Char → Bool
  | [], _ => true
  | _ :: _, [] => false
  | a :: as, b :: bs => a = b && leadsChars as bs

/-- Header insertion as performed by `SignedRequest::add_header` on its header
map: append the value to the entry for the (already lower-cased) key,
inserting a fresh entry when the key is absent. -/
def addHeaderGo (key value : String) : List (String × List String) → List (String × List String)
  | [] => [(key, [value])]
  | (k, vs) :: rest =>
    if k = key then (k, vs ++ [value]) :: rest
    else (k, vs) :: addHeaderGo key value rest

/-- Header removal as performed by `SignedRequest::remove_header` on its
header map (key already lower-cased). -/
def removeHeaderGo (key : String) : List (String × List String) → List (String × List String)
  | [] => []
  | (k, vs) :: rest =>
    if k = key then removeHeaderGo key rest
    else (k, vs) :: removeHeaderGo key rest

/-- Lookup in a header map keyed by lower-cased header names (the map is a
`BTreeMap<String, Vec<Vec<u8>>>` in the library; only key membership and the
value list are observable here, so insertion order of the association list is
immaterial). -/
def lookupHeader (key : String) : List (String × List String) → Option (List String)
  | [] => none
  | (k, vs) :: rest => if k = key then some vs else lookupHeader key rest

/-- `rusoto_core::signature::SignedRequest`: the fields the embedded code
observes. `params` is omitted: `VaultAwsAuthIamPayload::new` never sets
request params (it serializes them into the payload body instead), so the
canonical query string is empty throughout. -/
structure SignedRequest where
  method : String
  service : String
  region : Region
  path : String
  headers : List (String × List String)
  payload : Option (List Nat)
  contentType : Option String
deriving DecidableEq

/-- `SignedRequest::new`. -/
def SignedRequest.new (method service : String) (region : Region) (path : String) :
    SignedRequest :=
  ⟨method, service, region, path, [], none, none⟩

/-- `SignedRequest::add_header`: lower-cases the key, then inserts. -/
def SignedRequest.addHeader (r : SignedRequest) (key value : String) : SignedRequest :=
  { r with headers := addHeaderGo (toLowerStr key) value r.headers }

/-- `SignedRequest::remove_header` (the library lower-cases the key). -/
def SignedRequest.removeHeader (r : SignedRequest) (key : String) : SignedRequest :=
  { r with headers := removeHeaderGo (toLowerStr key) r.headers }

/-- `SignedRequest::set_payload` with a byte buffer. -/
def SignedRequest.setPayload (r : SignedRequest) (p : List Nat) : SignedRequest :=
  { r with payload := some p }

/-- `SignedRequest::set_content_type`. -/
def SignedRequest.setContentType (r : SignedRequest) (ct : String) : SignedRequest :=
  { r with contentType := some ct }

/-- The hostname the signing library computes for the `sts` service:
custom regions use the hostname extracted from their endpoint, standard
(non-China) regions use `{service}.{region}.amazonaws.com`. -/
def SignedRequest.hostname (r : SignedRequest) : String :=
  match r.region with
  | .custom _ endpoint => extractHostname endpoint
  | .standard name => r.service ++ "." ++ name ++ ".amazonaws.com"

/-- `SignedRequest::scheme`: custom endpoints keep an explicit `http://`
scheme, everything else is `https`. -/
def SignedRequest.scheme (r : SignedRequest) : String :=
  match r.region with
  | .custom _ endpoint => if leadsChars "http://".data endpoint.data then "http" else "https"
  | .standard _ => "https"

/-- `SignedRequest::canonical_path`: an empty path canonicalizes to `/`.
(URI percent-encoding of the path is omitted: the only path in scope is `/`,
which encodes to itself.) -/
def SignedRequest.canonicalPath (r : SignedRequest) : String :=
  if r.path = "" then "/" else r.path

/-- UTF-8 encoding of a character as a list of bytes. -/
def charUtf8 (c : Char) : List Nat :=
  let n := c.toNat
  if n < 128 then [n]
  else if n < 2048 then [192 + n / 64, 128 + n % 64]
  else if n < 65536 then [224 + n / 4096, 128 + n / 64 % 64, 128 + n % 64]
  else [240 + n / 262144, 128 + n / 4096 % 64, 128 + n / 64 % 64, 128 + n % 64]

/-- UTF-8 encoding of a string as a list of bytes (`String::into_bytes`). -/
def utf8Bytes (s : String) : List Nat := s.data.flatMap charUtf8

/-- Upper-case hexadecimal digit. -/
def hexDigitUpper (n : Nat) : Char :=
  if n < 10 then Char.ofNat (48 + n) else Char.ofNat (55 + n)

/-- Percent-encoding of one byte, upper-case hex. -/
def percentByte (b : Nat) : String :=
  String.mk ['%', hexDigitUpper (b / 16), hexDigitUpper (b % 16)]

/-- `application/x-www-form-urlencoded` encoding of one character as
performed by `serde_urlencoded`: alphanumerics and `*-._` pass through, space
becomes `+`, every other character is percent-encoded byte-wise. -/
def formUrlencodeChar (c : Char) : String :=
  if c.isAlphanum || c = '*' || c = '-' || c = '.' || c = '_' then String.singleton c
  else if c = ' ' then "+"
  else String.join ((charUtf8 c).map percentByte)

/-- `application/x-www-form-urlencoded` encoding of a string. -/
def formUrlencode (s : String) : String := String.join (s.data.map formUrlencodeChar)

/-- `serde_urlencoded::to_string` on a params map: `key=value` pairs joined
with `&`, each side form-urlencoded, in map (key-sorted) order. -/
def serdeUrlencoded (params : List (String × String)) : String :=
  String.intercalate "&"
    (params.map (fun p => formUrlencode p.1 ++ "=" ++ formUrlencode p.2))

/-- Lexicographic order on character lists by code point: the `Ord` instance
of Rust strings restricted to the ASCII keys in scope (where byte order and
code-point order agree). -/
def charListLt : List Char → List Char → Bool
  | [], [] => false
  | [], _ :: _ => true
  | _ :: _, [] => false
  | a :: as, b :: bs =>
    if a.toNat < b.toNat then true
    else if b.toNat < a.toNat then false
    else charListLt as bs

/-- String order backing the params map (see `charListLt`). -/
def strLtB (a b : String) : Bool := charListLt a.data b.data

/-- Insertion into a `Params` map (`rusoto_core::param::Params`, a
`BTreeMap<String, String>`): keeps the association list sorted by key and
replaces an existing entry. -/
def paramsPut (params : List (String × String)) (k v : String) : List (String × String) :=
  match params with
  | [] => [(k, v)]
  | (k0, v0) :: rest =>
    if k = k0 then (k, v) :: rest
    else if strLtB k k0 then (k, v) :: (k0, v0) :: rest
    else (k0, v0) :: paramsPut rest k v

/-- Standard base64 alphabet. -/
def base64Alphabet : List Char :=
  "ABCDEFGHIJKLMNOPQRSTUVWXYZabcdefghijklmnopqrstuvwxyz0123456789+/".data

/-- One base64 digit. -/
def base64Digit (n : Nat) : Char := base64Alphabet.getD n 'A'

/-- Standard padded base64 of a byte list (`base64::encode`). -/
def base64Go : List Nat → String
  | [] => ""
  | [b1] =>
    String.mk [base64Digit (b1 / 4), base64Digit (b1 % 4 * 16), '=', '=']
  | [b1, b2] =>
    String.mk [base64Digit (b1 / 4), base64Digit (b1 % 4 * 16 + b2 / 16),
               base64Digit (b2 % 16 * 4), '=']
  | b1 :: b2 :: b3 :: rest =>
    String.mk [base64Digit (b1 / 4), base64Digit (b1 % 4 * 16 + b2 / 16),
               base64Digit (b2 % 16 * 4 + b3 / 64), base64Digit (b3 % 64)] ++
      base64Go rest

/-- `base64::encode` of the UTF-8 bytes of a string. -/
def base64EncodeString (s : String) : String := base64Go (utf8Bytes s)

/-- The timestamp the signing library reads from the wall clock at signing
time, formatted `YYYYMMDDTHHMMSSZ`. The clock is outside the model; a fixed
representative instant stands in for it. No claim in scope depends on its
value, only on which header it is stored under. -/
def modelDate : String := "20190101T000000Z"

/-- The date scope portion of the credential string (`YYYYMMDD`). -/
def modelDateShort : String := "20190101"

/-- The hex digest of the request payload computed by the signing library
(SHA-256). The hash is a pinned external subroutine (spec design notes); it
is modelled by a deterministic injective placeholder over the payload bytes.
No claim in scope depends on its value. -/
def payloadDigestModel (payload : Option (List Nat)) : String :=
  "sha256-" ++ String.intercalate "-" ((payload.getD []).map toString)

/-- The `authorization` header value produced by the signing library: the
SigV4 credential scope around a signature. The HMAC chain itself is a pinned
external subroutine; it is modelled by a deterministic placeholder. No claim
in scope depends on this value, only on the header being present and on the
signing step not disturbing other headers. -/
def authorizationModel (creds : AwsCredentials) (r : SignedRequest) : String :=
  "AWS4-HMAC-SHA256 Credential=" ++ creds.key ++ "/" ++ modelDateShort ++ "/" ++
    r.region.name ++ "/" ++ r.service ++ "/aws4_request, SignedHeaders=" ++
    String.intercalate ";" (r.headers.map (fun h => h.1)) ++ ", Signature=" ++
    payloadDigestModel r.payload

/-- `SignedRequest::sign_with_plus`: attaches the standard signing headers —
`x-amz-date`, `x-amz-security-token` (when a session token is present),
`content-type` (when set), `x-amz-content-sha256`, `host`, `content-length`
(when a payload buffer is set) and `authorization` — replacing any previous
occurrence and leaving every other header and every non-header field
untouched. The cryptographic digest and signature values are modelled by the
placeholder functions above. -/
def SignedRequest.signWithPlus (r : SignedRequest) (creds : AwsCredentials) :
    SignedRequest :=
  let r := (r.removeHeader "x-amz-date").addHeader "x-amz-date" modelDate
  let r := match creds.token with
    | some t => (r.removeHeader "x-amz-security-token").addHeader "x-amz-security-token" t
    | none => r
  let r := match r.contentType with
    | some ct => (r.removeHeader "content-type").addHeader "content-type" ct
    | none => r
  let r := (r.removeHeader "x-amz-content-sha256").addHeader "x-amz-content-sha256"
    (payloadDigestModel r.payload)
  let r := (r.removeHeader "host").addHeader "host" r.hostname
  let r := match r.payload with
    | some buffer =>
      (r.removeHeader "content-length").addHeader "content-length" (toString buffer.length)
    | none => r
  (r.removeHeader "authorization").addHeader "authorization" (authorizationModel creds r)

/-- The fixed anti-replay header name
(`src/nomad_drain/src/aws.rs`, `IAM_SERVER_ID_HEADER`). -/
def IAM_SERVER_ID_HEADER : String := "X-Vault-AWS-IAM-Server-ID"

/-- Payload for authenticating with the Vault AWS IAM method
(`aws.rs`, `VaultAwsAuthIamPayload`). -/
structure VaultAwsAuthIamPayload where
  iam_http_request_method : String
  iam_request_url : String
  iam_request_body : String
  iam_request_headers : List (String × List String)
deriving DecidableEq

/-- The request `VaultAwsAuthIamPayload::new` assembles before the signing
step (`aws.rs` lines 58-90): a POST for service `sts` at path `/` against the
given region (defaulting to the custom `us-east-1`/`sts.amazonaws.com` global
endpoint), payload `Action=GetCallerIdentity&Version=2011-06-15`
form-urlencoded from a params map, content type
`application/x-www-form-urlencoded`, and — when a non-empty anti-replay
header value is supplied — that value under `X-Vault-AWS-IAM-Server-ID`. -/
def vaultAwsAuthIamPresignRequest (headerValue : Option String)
    (region : Option Region) : SignedRequest :=
  let region := match region with
    | some r => r
    | none => Region.custom "us-east-1" "sts.amazonaws.com"
  let request := SignedRequest.new "POST" "sts" region "/"
  let params := paramsPut (paramsPut [] "Action" "GetCallerIdentity") "Version" "2011-06-15"
  let request := request.setPayload (utf8Bytes (serdeUrlencoded params))
  let request := request.setContentType "application/x-www-form-urlencoded"
  match headerValue with
  | some value => if value ≠ "" then request.addHeader IAM_SERVER_ID_HEADER value else request
  | none => request

/-- `VaultAwsAuthIamPayload::new` (`aws.rs` lines 49-130): signs the
pre-signing request, captures `scheme://hostname{canonical_path}` as the
base64-encoded request URL, base64-encodes the payload buffer as the request
body (the `None` payload branch is the `unreachable!` arm of the source:
the payload was set above and signing preserves it), and keeps the signed
header map. -/
def VaultAwsAuthIamPayload.new (credentials : AwsCredentials)
    (headerValue : Option String) (region : Option Region) : VaultAwsAuthIamPayload :=
  let request := (vaultAwsAuthIamPresignRequest headerValue region).signWithPlus credentials
  let uri := request.scheme ++ "://" ++ request.hostname ++ request.canonicalPath
  let payload := match request.payload with
    | some buffer => base64Go buffer
    | none => ""
  { iam_http_request_method := "POST"
    iam_request_url := base64EncodeString uri
    iam_request_body := payload
    iam_request_headers := request.headers }

end Aws

/-! Concrete sample data used by witnesses and counterexamples. -/

/-- A concrete node listing entry: id and status vary, the remaining fields
are fixed. -/
def sampleSummary (nodeId : String) (st : Nomad.NodeStatus) : Nomad.NodesInList where
  address := "10.0.0.1"
  datacenter := "dc1"
  drain := false
  id := nodeId
  name := nodeId
  status := st
  nodeClass := "default"
  schedulingEligibility := .eligible
  version := "0.9.1"
  modifyIndex := 1
  statusDescription := ""

/-- A concrete node-details value: id, the optional cloud-instance-id
attribute, drain strategy and status vary, the remaining fields are fixed. -/
def sampleNodeDetails (nodeId : String) (inst : Option String)
    (ds : Option Nomad.DrainStrategy) (st : Nomad.NodeStatus) : Nomad.Node where
  id := nodeId
  name := nodeId
  attributes :=
    match inst with
    | some i => [("unique.platform.aws.instance-id", i)]
    | none => []
  computedClass := "default"
  createIndex := 1
  datacenter := "dc1"
  drain := ds.isSome
  drainStrategy := ds
  httpAddress := "10.0.0.1:4646"
  modifyIndex := 1
  schedulingEligibility := .ineligible
  secretId := "node-secret"
  status := st
  statusDescription := ""
  statusUpdatedAt := 0
  tlsEnabled := false
  nodeClass := none

/-- A details oracle: node `n1` is Ready with a non-matching instance id,
node `n2` is Ready with instance id `i-0123456789abcdef0`, any other id fails
with a transport error. -/
def sampleDetailsOracle : String → Except Error (Nomad.BlockingResponse Nomad.Node) :=
  fun nodeId =>
    if nodeId = "n1" then
      .ok ⟨5, sampleNodeDetails "n1" (some "i-aaaaaaaaaaaaaaaaa") none .ready⟩
    else if nodeId = "n2" then
      .ok ⟨6, sampleNodeDetails "n2" (some "i-0123456789abcdef0") none .ready⟩
    else .error (.reqwestError "connection refused")

/-- A details oracle whose fetch for node `n1` fails with a transport error
while node `n2` succeeds with a matching instance id. -/
def flakyDetailsOracle : String → Except Error (Nomad.BlockingResponse Nomad.Node) :=
  fun nodeId =>
    if nodeId = "n1" then .error (.reqwestError "connection reset by peer")
    else if nodeId = "n2" then
      .ok ⟨7, sampleNodeDetails "n2" (some "i-0123456789abcdef0") none .ready⟩
    else .error (.reqwestError "connection refused")

/-- A monitor fetch result: the node is Down but still has a drain
strategy. -/
def drainingDownFetch : Except Error (Nomad.BlockingResponse Nomad.Node) :=
  .ok ⟨3, sampleNodeDetails "n9" none (some ⟨some ⟨3600, false⟩, 0⟩) .down⟩

/-- A monitor fetch result: the drain strategy has cleared. -/
def drainClearedFetch : Except Error (Nomad.BlockingResponse Nomad.Node) :=
  .ok ⟨4, sampleNodeDetails "n9" none none .ready⟩

/-! Theorems. -/

/-- C7: for every indexed (long-pollable) scheduler response whose
change-index response header is absent, the returned indexed result carries
index 0 and the call succeeds — a missing index header is never an error. -/
theorem makeIndexedResponse_absent_header_is_index_zero {T : Type} (data : T) :
    Nomad.makeIndexedResponse none data = .ok ⟨0, data⟩ := rfl

/-- C9: the Display and Debug renderings of the secret wrapper are the fixed
redaction marker "***", independent of the wrapped string; in particular any
two secrets have equal textual renderings, so no token value can appear in
text rendered through the wrapper. -/
theorem secret_renders_fixed_redaction_marker (s1 s2 : Secret) :
    Secret.displayFmt s1 = "***" ∧ Secret.debugFmt s1 = "***" ∧
    Secret.displayFmt s1 = Secret.displayFmt s2 ∧
    Secret.debugFmt s1 = Secret.debugFmt s2 :=
  ⟨rfl, rfl, rfl, rfl⟩

/-- C3: a broker login response that is an error envelope yields
`InvalidVaultResponse` with the error strings joined with "; ", and a
nominally-successful envelope without `auth` yields `InvalidVaultResponse`
rather than succeeding with an empty token. -/
theorem login_error_envelope_and_missing_auth (errors : List String)
    (d : Vault.ResponseData) (hauth : d.auth = none) :
    Vault.loginAwsIamToken (.error errors) =
      .error (.invalidVaultResponse (String.intercalate "; " errors)) ∧
    Vault.loginAwsIamToken (.response d) =
      .error (.invalidVaultResponse "Missing authentication data") := by
  refine ⟨rfl, ?_⟩
  simp [Vault.loginAwsIamToken, hauth]

/-- Witness for C3 at the concrete envelopes of the spec example. -/
theorem login_error_envelope_and_missing_auth_witness :
    Vault.loginAwsIamToken (.error ["x", "y"]) =
      .error (.invalidVaultResponse "x; y") ∧
    Vault.loginAwsIamToken
        (.response ⟨"req-1", "lease-1", false, 0, none, none, none⟩) =
      .error (.invalidVaultResponse "Missing authentication data") := by
  have h := login_error_envelope_and_missing_auth ["x", "y"]
    ⟨"req-1", "lease-1", false, 0, none, none, none⟩ rfl
  exact ⟨h.1.trans (by decide), h.2⟩

/-- C4: a scheduler-token success envelope whose data map lacks the
"secret_id" key yields `InvalidVaultResponse`, and a success envelope
containing "secret_id" yields exactly that string as the returned token. -/
theorem nomad_token_requires_secret_id (d : Vault.ResponseData)
    (data : List (String × String)) (hdata : d.data = some data) :
    (Vault.mapGet "secret_id" data = none →
      Vault.getNomadTokenFromResponse (.response d) =
        .error (.invalidVaultResponse "Missing Nomad token from response")) ∧
    (∀ v, Vault.mapGet "secret_id" data = some v →
      Vault.getNomadTokenFromResponse (.response d) = .ok ⟨v⟩) := by
  constructor
  · intro hmiss
    simp [Vault.getNomadTokenFromResponse, hdata, hmiss]
  · intro v hv
    simp [Vault.getNomadTokenFromResponse, hdata, hv]

/-- Witness for C4 at concrete success envelopes with and without the
"secret_id" key. -/
theorem nomad_token_requires_secret_id_witness :
    Vault.getNomadTokenFromResponse
        (.response ⟨"req-2", "lease-2", true, 2764800, none, none,
          some [("accessor_id", "accessor")]⟩) =
      .error (.invalidVaultResponse "Missing Nomad token from response") ∧
    Vault.getNomadTokenFromResponse
        (.response ⟨"req-2", "lease-2", true, 2764800, none, none,
          some [("accessor_id", "accessor"), ("secret_id", "secret")]⟩) =
      .ok ⟨"secret"⟩ := by
  constructor
  · exact (nomad_token_requires_secret_id _ [("accessor_id", "accessor")] rfl).1 (by decide)
  · exact (nomad_token_requires_secret_id _
      [("accessor_id", "accessor"), ("secret_id", "secret")] rfl).2 "secret" (by decide)

/-- C10: a scheduler request built with no wait index attaches neither the
"index" nor the "wait" query parameter, even when a wait timeout is supplied;
consequently the drain monitor's first node-details fetch (wait index
initialized to `none`) is a non-blocking read and the supplied wait timeout is
dropped for that request. -/
theorem no_blocking_params_without_wait_index
    (r : Nomad.Request) (t : Nat) (c : Nomad.Client) (nodeId : String)
    (f : Except Error (Nomad.BlockingResponse Nomad.Node))
    (rest : List (Except Error (Nomad.BlockingResponse Nomad.Node)))
    (wt : Nat) :
    Nomad.addBlockingRequests r none (some t) = r ∧
    (Nomad.buildNodeDetailsRequest c nodeId none (some t)).query = [] ∧
    (Nomad.monitorNodeDrain (f :: rest) (some wt)).fetchArgs.head? =
      some (none, some wt) ∧
    (Nomad.monitorNodeDrain (f :: rest) none).fetchArgs.head? =
      some (none, some 300) := by
  refine ⟨rfl, ?_, ?_, ?_⟩
  · cases hc : c.token <;>
      simp [Nomad.buildNodeDetailsRequest, Nomad.addBlockingRequests,
        Nomad.addNomadTokenHeader, hc]
  · cases f with
    | error e => rfl
    | ok b =>
      by_cases hb : b.data.drainStrategy.isNone <;>
        simp [Nomad.monitorNodeDrain, Nomad.monitorLoop, hb]
  · cases f with
    | error e => rfl
    | ok b =>
      by_cases hb : b.data.drainStrategy.isNone <;>
        simp [Nomad.monitorNodeDrain, Nomad.monitorLoop, hb]

/-- Helper: the monitor loop walks through every still-draining fetch result
(whatever the wait-index/strategy bookkeeping state) and stops successfully at
the first fetched node without a drain strategy, leaving the rest of the
sequence untouched. -/
theorem monitorLoop_stops_at_cleared (wt : Nat)
    (pre post : List (Except Error (Nomad.BlockingResponse Nomad.Node)))
    (hpre : ∀ f ∈ pre, Nomad.stillDraining f = true)
    (n : Nomad.BlockingResponse Nomad.Node) (hn : n.data.drainStrategy = none) :
    ∀ wi st ch,
      (Nomad.monitorLoop wt (pre ++ .ok n :: post) wi st ch).outcome = some (.ok ()) ∧
      (Nomad.monitorLoop wt (pre ++ .ok n :: post) wi st ch).fetchArgs.length
        = pre.length + 1 := by
  induction pre with
  | nil =>
    intro wi st ch
    simp [Nomad.monitorLoop, hn]
  | cons f fs ih =>
    intro wi st ch
    have hf := hpre f (List.mem_cons_self f fs)
    have hfs : ∀ g ∈ fs, Nomad.stillDraining g = true :=
      fun g hg => hpre g (List.mem_cons_of_mem f hg)
    cases f with
    | error e => simp [Nomad.stillDraining] at hf
    | ok b =>
      have hb : b.data.drainStrategy.isNone = false := by
        simp only [Nomad.stillDraining] at hf
        simp [Option.isNone_eq_false_iff, ← Option.isSome_iff_ne_none] at hf ⊢
        exact hf
      have hrec := ih hfs (some b.index) b.data.drainStrategy true
      simp [Nomad.monitorLoop, hb]
      exact ⟨hrec.1, hrec.2⟩

/-- C1: whenever the drain monitor fetches a node whose drain strategy is
null, it returns success on that iteration and performs no further fetches,
whether or not a strategy was observed earlier; earlier fetched nodes that
still carry a drain strategy — of any status, including Down — never
terminate the loop. -/
theorem monitor_succeeds_when_strategy_null
    (pre post : List (Except Error (Nomad.BlockingResponse Nomad.Node)))
    (hpre : ∀ f ∈ pre, Nomad.stillDraining f = true)
    (n : Nomad.BlockingResponse Nomad.Node) (hn : n.data.drainStrategy = none)
    (wto : Option Nat) :
    (Nomad.monitorNodeDrain (pre ++ .ok n :: post) wto).outcome = some (.ok ()) ∧
    (Nomad.monitorNodeDrain (pre ++ .ok n :: post) wto).fetchArgs.length
      = pre.length + 1 := by
  cases wto with
  | none => exact monitorLoop_stops_at_cleared 300 pre post hpre n hn none none false
  | some wt => exact monitorLoop_stops_at_cleared wt pre post hpre n hn none none false

/-- Witness for C1: one fetch of a Down node still draining, then a fetch with
the strategy cleared; the monitor succeeds after two fetches and never touches
the remaining element of the sequence. -/
theorem monitor_succeeds_when_strategy_null_witness :
    (∀ f ∈ [drainingDownFetch], Nomad.stillDraining f = true) ∧
    (Nomad.monitorNodeDrain [drainingDownFetch, drainClearedFetch, drainingDownFetch]
        none).outcome = some (.ok ()) ∧
    (Nomad.monitorNodeDrain [drainingDownFetch, drainClearedFetch, drainingDownFetch]
        none).fetchArgs.length = 2 := by
  have h := monitor_succeeds_when_strategy_null [drainingDownFetch] [drainingDownFetch]
    (by decide) ⟨4, sampleNodeDetails "n9" none none .ready⟩ (by decide) none
  refine ⟨by decide, ?_, ?_⟩
  · simpa [drainClearedFetch] using h.1
  · simpa [drainClearedFetch] using h.2

/-- Helper: the detail-fetch traversal stops at the first matching node,
having fetched exactly the preceding non-matching nodes and the match. -/
theorem findLoop_first_match
    (details : String → Except Error (Nomad.BlockingResponse Nomad.Node))
    (instanceId : String) (r1 : List Nomad.NodesInList) (m : Nomad.NodesInList)
    (r2 : List Nomad.NodesInList)
    (hm : Nomad.detailsMatch instanceId (details m.id) = true)
    (h1 : ∀ x ∈ r1, Nomad.detailsMatch instanceId (details x.id) = false) :
    Nomad.findLoop details instanceId (r1 ++ m :: r2)
      = (some (details m.id), r1.map (fun x => x.id) ++ [m.id]) := by
  induction r1 with
  | nil => simp [Nomad.findLoop, hm]
  | cons x xs ih =>
    have hx := h1 x (List.mem_cons_self x xs)
    have hxs : ∀ y ∈ xs, Nomad.detailsMatch instanceId (details y.id) = false :=
      fun y hy => h1 y (List.mem_cons_of_mem x hy)
    simp [Nomad.findLoop, hx, ih hxs]

/-- Helper: when no node in the list matches, the traversal fetches every
node and finds nothing. -/
theorem findLoop_no_match
    (details : String → Except Error (Nomad.BlockingResponse Nomad.Node))
    (instanceId : String) (l : List Nomad.NodesInList)
    (h : ∀ x ∈ l, Nomad.detailsMatch instanceId (details x.id) = false) :
    Nomad.findLoop details instanceId l = (none, l.map (fun x => x.id)) := by
  induction l with
  | nil => rfl
  | cons x xs ih =>
    have hx := h x (List.mem_cons_self x xs)
    have hxs : ∀ y ∈ xs, Nomad.detailsMatch instanceId (details y.id) = false :=
      fun y hy => h y (List.mem_cons_of_mem x hy)
    simp [Nomad.findLoop, hx, ih hxs]

/-- C2: the instance-id search fetches details only for Ready nodes,
sequentially in listing order; when the Ready nodes split as `r1 ++ m :: r2`
with `m` the only match, it returns the full details fetched for `m`, having
fetched exactly the Ready nodes up to and including `m`; when no Ready node
matches it returns `NomadNodeNotFound` with the queried instance id after
fetching every Ready node. -/
theorem find_node_by_instance_id_ready_search
    (details : String → Except Error (Nomad.BlockingResponse Nomad.Node))
    (instanceId : String)
    (nodes : Nomad.BlockingResponse (List Nomad.NodesInList)) :
    (∀ r1 m r2,
      nodes.data.filter (fun node => node.status = Nomad.NodeStatus.ready)
          = r1 ++ m :: r2 →
      Nomad.detailsMatch instanceId (details m.id) = true →
      (∀ x ∈ r1, Nomad.detailsMatch instanceId (details x.id) = false) →
      (∀ x ∈ r2, Nomad.detailsMatch instanceId (details x.id) = false) →
      Nomad.findNodeByInstanceId details instanceId (.ok nodes)
        = (details m.id, r1.map (fun x => x.id) ++ [m.id])) ∧
    ((∀ x ∈ nodes.data.filter (fun node => node.status = Nomad.NodeStatus.ready),
        Nomad.detailsMatch instanceId (details x.id) = false) →
      Nomad.findNodeByInstanceId details instanceId (.ok nodes)
        = (.error (.nomadNodeNotFound instanceId),
           (nodes.data.filter (fun node => node.status = Nomad.NodeStatus.ready)).map
             (fun x => x.id))) := by
  constructor
  · intro r1 m r2 hsplit hm h1 _h2
    have hloop := findLoop_first_match details instanceId r1 m r2 hm h1
    cases hd : details m.id with
    | error e => rw [hd] at hm; simp [Nomad.detailsMatch] at hm
    | ok found =>
      rw [hd] at hloop
      simp [Nomad.findNodeByInstanceId, hsplit, hloop, hd]
  · intro hnone
    have hloop := findLoop_no_match details instanceId _ hnone
    simp [Nomad.findNodeByInstanceId, hloop]

/-- Witness for C2: a listing with one Initializing node and three Ready
nodes of which exactly the second Ready node matches; the search returns that
node's details and fetches details only for the first two Ready nodes. -/
theorem find_node_by_instance_id_ready_search_witness :
    Nomad.findNodeByInstanceId sampleDetailsOracle "i-0123456789abcdef0"
        (.ok ⟨9, [sampleSummary "n0" .initializing, sampleSummary "n1" .ready,
                  sampleSummary "n2" .ready, sampleSummary "n3" .ready]⟩)
      = (.ok ⟨6, sampleNodeDetails "n2" (some "i-0123456789abcdef0") none .ready⟩,
         ["n1", "n2"]) := by
  have h := (find_node_by_instance_id_ready_search sampleDetailsOracle "i-0123456789abcdef0"
      ⟨9, [sampleSummary "n0" .initializing, sampleSummary "n1" .ready,
           sampleSummary "n2" .ready, sampleSummary "n3" .ready]⟩).1
    [sampleSummary "n1" .ready] (sampleSummary "n2" .ready) [sampleSummary "n3" .ready]
    (by decide) (by decide) (by decide) (by decide)
  exact h.trans (by decide)

/-- C8 counterexample: with the first Ready node's details fetch failing with
a transport error and the second Ready node matching, the search returns the
second node's details successfully — the transport failure during the detail
fetch is treated as a non-match and silently swallowed instead of surfacing
as an error. -/
theorem find_node_swallows_details_fetch_error :
    flakyDetailsOracle "n1" = .error (.reqwestError "connection reset by peer") ∧
    Nomad.findNodeByInstanceId flakyDetailsOracle "i-0123456789abcdef0"
        (.ok ⟨9, [sampleSummary "n1" .ready, sampleSummary "n2" .ready]⟩)
      = (.ok ⟨7, sampleNodeDetails "n2" (some "i-0123456789abcdef0") none .ready⟩,
         ["n1", "n2"]) := by
  exact ⟨by decide, by decide⟩

/-- C8 (amended): a transport or parse failure of the node listing itself is
terminal and surfaces immediately with no detail fetches; but a
transport/parse failure while fetching an individual node's full details
during the instance-id search is treated as a non-match — the errored fetch
never satisfies the match predicate, and when no Ready node matches (failed
fetches included) the search reports `NomadNodeNotFound` for the queried
instance id after checking every Ready node, rather than surfacing the
underlying failure. -/
theorem find_node_listing_error_terminal_details_error_skipped
    (details : String → Except Error (Nomad.BlockingResponse Nomad.Node))
    (instanceId : String) (e : Error)
    (nodes : Nomad.BlockingResponse (List Nomad.NodesInList)) :
    Nomad.findNodeByInstanceId details instanceId (.error e) = (.error e, []) ∧
    (∀ err : Error, Nomad.detailsMatch instanceId (.error err) = false) ∧
    ((∀ x ∈ nodes.data.filter (fun node => node.status = Nomad.NodeStatus.ready),
        Nomad.detailsMatch instanceId (details x.id) = false) →
      Nomad.findNodeByInstanceId details instanceId (.ok nodes)
        = (.error (.nomadNodeNotFound instanceId),
           (nodes.data.filter (fun node => node.status = Nomad.NodeStatus.ready)).map
             (fun x => x.id))) := by
  refine ⟨rfl, fun err => rfl, ?_⟩
  intro hnone
  have hloop := findLoop_no_match details instanceId _ hnone
  simp [Nomad.findNodeByInstanceId, hloop]

/-- Witness for the amended C8: a failing listing propagates its error, and a
search in which one Ready node's fetch fails and the other does not match
ends in `NomadNodeNotFound` after checking both Ready nodes. -/
theorem find_node_error_policy_witness :
    Nomad.findNodeByInstanceId flakyDetailsOracle "i-zzz"
        (.error (.reqwestError "tls handshake failure"))
      = (.error (.reqwestError "tls handshake failure"), []) ∧
    Nomad.findNodeByInstanceId flakyDetailsOracle "i-zzz"
        (.ok ⟨9, [sampleSummary "n1" .ready, sampleSummary "n2" .ready]⟩)
      = (.error (.nomadNodeNotFound "i-zzz"), ["n1", "n2"]) := by
  have h := find_node_listing_error_terminal_details_error_skipped flakyDetailsOracle
    "i-zzz" (.reqwestError "tls handshake failure")
    ⟨9, [sampleSummary "n1" .ready, sampleSummary "n2" .ready]⟩
  exact ⟨h.1, (h.2.2 (by decide)).trans (by decide)⟩

/-- Helper: `String.data` distributes over append. -/
theorem stringAppendData (a b : String) : (a ++ b).data = a.data ++ b.data := by
  cases a; cases b; rfl

/-- Helper: strings with equal character data are equal. -/
theorem stringDataInj {a b : String} (h : a.data = b.data) : a = b := by
  cases a; cases b; simp only [] at h; cases h; rfl

/-- Helper: re-association of the URL assembled by the payload builder into
the literal expected by the spec. -/
theorem urlAppendHelper (s : String) :
    "https" ++ "://" ++ ("sts" ++ "." ++ s ++ ".amazonaws.com") ++ "/"
      = "https://sts." ++ s ++ ".amazonaws.com/" := by
  apply stringDataInj
  simp only [stringAppendData, List.append_assoc]
  rfl

/-- Helper: the signing step only touches the header map; region, service,
path and payload are preserved. -/
theorem signWithPlus_preserves_fields (r : Aws.SignedRequest)
    (creds : Aws.AwsCredentials) :
    (r.signWithPlus creds).region = r.region ∧
    (r.signWithPlus creds).service = r.service ∧
    (r.signWithPlus creds).path = r.path ∧
    (r.signWithPlus creds).payload = r.payload := by
  rcases r with ⟨m, sv, rg, p, hs, pl, ct⟩
  rcases creds with ⟨k, s, tok⟩
  cases tok <;> cases ct <;> cases pl <;>
    simp [Aws.SignedRequest.signWithPlus, Aws.SignedRequest.addHeader,
      Aws.SignedRequest.removeHeader]

/-- Helper: the non-header fields of the pre-signing request assembled by the
payload builder. -/
theorem presign_fields (hv : Option String) (rg : Option Aws.Region) :
    (Aws.vaultAwsAuthIamPresignRequest hv rg).region
        = (match rg with
           | some r => r
           | none => Aws.Region.custom "us-east-1" "sts.amazonaws.com") ∧
    (Aws.vaultAwsAuthIamPresignRequest hv rg).service = "sts" ∧
    (Aws.vaultAwsAuthIamPresignRequest hv rg).path = "/" ∧
    (Aws.vaultAwsAuthIamPresignRequest hv rg).payload
        = some (Aws.utf8Bytes "Action=GetCallerIdentity&Version=2011-06-15") := by
  have hser : Aws.serdeUrlencoded
      (Aws.paramsPut (Aws.paramsPut [] "Action" "GetCallerIdentity")
        "Version" "2011-06-15") = "Action=GetCallerIdentity&Version=2011-06-15" := by
    decide
  cases hv with
  | none =>
    simp [Aws.vaultAwsAuthIamPresignRequest, Aws.SignedRequest.new,
      Aws.SignedRequest.setPayload, Aws.SignedRequest.setContentType, hser]
  | some v =>
    by_cases hveq : v = "" <;>
      simp [Aws.vaultAwsAuthIamPresignRequest, Aws.SignedRequest.new,
        Aws.SignedRequest.setPayload, Aws.SignedRequest.setContentType,
        Aws.SignedRequest.addHeader, hser, hveq]

/-- C5: for every well-formed credentials input and anti-replay value, the
identity payload built with a given (standard-partition) region has
`iam_request_url` equal to the base64 encoding of exactly
`https://sts.{region}.amazonaws.com/`; built with the region absent it equals
the base64 encoding of `https://sts.amazonaws.com/`; `iam_request_body`
always equals the base64 encoding of
`Action=GetCallerIdentity&Version=2011-06-15`; and `iam_http_request_method`
is the fixed string "POST". (Base64 encoding is injective, so equality of the
encodings states exactly that the fields decode to the expected strings.) -/
theorem payload_url_body_method_deterministic
    (credentials : Aws.AwsCredentials) (hv : Option String) (name : String) :
    (Aws.VaultAwsAuthIamPayload.new credentials hv
        (some (.standard name))).iam_request_url
      = Aws.base64EncodeString ("https://sts." ++ name ++ ".amazonaws.com/") ∧
    (Aws.VaultAwsAuthIamPayload.new credentials hv none).iam_request_url
      = Aws.base64EncodeString "https://sts.amazonaws.com/" ∧
    (∀ rg : Option Aws.Region,
      (Aws.VaultAwsAuthIamPayload.new credentials hv rg).iam_request_body
        = Aws.base64EncodeString "Action=GetCallerIdentity&Version=2011-06-15" ∧
      (Aws.VaultAwsAuthIamPayload.new credentials hv rg).iam_http_request_method
        = "POST") := by
  refine ⟨?_, ?_, ?_⟩
  · have hp := presign_fields hv (some (.standard name))
    have hs := signWithPlus_preserves_fields
      (Aws.vaultAwsAuthIamPresignRequest hv (some (.standard name))) credentials
    have hregion : ((Aws.vaultAwsAuthIamPresignRequest hv
        (some (.standard name))).signWithPlus credentials).region
          = .standard name := by rw [hs.1, hp.1]
    have hservice : ((Aws.vaultAwsAuthIamPresignRequest hv
        (some (.standard name))).signWithPlus credentials).service = "sts" := by
      rw [hs.2.1, hp.2.1]
    have hpath : ((Aws.vaultAwsAuthIamPresignRequest hv
        (some (.standard name))).signWithPlus credentials).path = "/" := by
      rw [hs.2.2.1, hp.2.2.1]
    have hscheme : ((Aws.vaultAwsAuthIamPresignRequest hv
        (some (.standard name))).signWithPlus credentials).scheme = "https" := by
      simp [Aws.SignedRequest.scheme, hregion]
    have hhost : ((Aws.vaultAwsAuthIamPresignRequest hv
        (some (.standard name))).signWithPlus credentials).hostname
          = "sts" ++ "." ++ name ++ ".amazonaws.com" := by
      simp [Aws.SignedRequest.hostname, hregion, hservice]
    have hcanon : ((Aws.vaultAwsAuthIamPresignRequest hv
        (some (.standard name))).signWithPlus credentials).canonicalPath = "/" := by
      simp [Aws.SignedRequest.canonicalPath, hpath]
    simp only [Aws.VaultAwsAuthIamPayload.new]
    rw [hscheme, hhost, hcanon]
    exact congrArg Aws.base64EncodeString (urlAppendHelper name)
  · have hp := presign_fields hv none
    have hs := signWithPlus_preserves_fields
      (Aws.vaultAwsAuthIamPresignRequest hv none) credentials
    have hregion : ((Aws.vaultAwsAuthIamPresignRequest hv none).signWithPlus
        credentials).region = .custom "us-east-1" "sts.amazonaws.com" := by
      rw [hs.1, hp.1]
    have hpath : ((Aws.vaultAwsAuthIamPresignRequest hv none).signWithPlus
        credentials).path = "/" := by rw [hs.2.2.1, hp.2.2.1]
    have hscheme : ((Aws.vaultAwsAuthIamPresignRequest hv none).signWithPlus
        credentials).scheme = "https" := by
      simp only [Aws.SignedRequest.scheme, hregion]
      decide
    have hhost : ((Aws.vaultAwsAuthIamPresignRequest hv none).signWithPlus
        credentials).hostname = "sts.amazonaws.com" := by
      simp only [Aws.SignedRequest.hostname, hregion]
      decide
    have hcanon : ((Aws.vaultAwsAuthIamPresignRequest hv none).signWithPlus
        credentials).canonicalPath = "/" := by
      simp [Aws.SignedRequest.canonicalPath, hpath]
    simp only [Aws.VaultAwsAuthIamPayload.new]
    rw [hscheme, hhost, hcanon]
    exact congrArg Aws.base64EncodeString (by decide)
  · intro rg
    have hp := presign_fields hv rg
    have hs := signWithPlus_preserves_fields
      (Aws.vaultAwsAuthIamPresignRequest hv rg) credentials
    have hpayload : ((Aws.vaultAwsAuthIamPresignRequest hv rg).signWithPlus
        credentials).payload
          = some (Aws.utf8Bytes "Action=GetCallerIdentity&Version=2011-06-15") := by
      rw [hs.2.2.2, hp.2.2.2]
    constructor
    · simp only [Aws.VaultAwsAuthIamPayload.new, hpayload]
      rfl
    · simp only [Aws.VaultAwsAuthIamPayload.new]

/-- Helper: inserting a header under a different key does not change a
lookup. -/
theorem lookupHeader_addHeaderGo_ne (k v k0 : String)
    (h : List (String × List String)) (hne : k ≠ k0) :
    Aws.lookupHeader k0 (Aws.addHeaderGo k v h) = Aws.lookupHeader k0 h := by
  induction h with
  | nil => simp [Aws.addHeaderGo, Aws.lookupHeader, hne]
  | cons p rest ih =>
    obtain ⟨pk, pv⟩ := p
    by_cases hp : pk = k
    · subst hp
      simp [Aws.addHeaderGo, Aws.lookupHeader, hne]
    · simp [Aws.addHeaderGo, Aws.lookupHeader, hp, ih]

/-- Helper: removing a header under a different key does not change a
lookup. -/
theorem lookupHeader_removeHeaderGo_ne (k k0 : String)
    (h : List (String × List String)) (hne : k ≠ k0) :
    Aws.lookupHeader k0 (Aws.removeHeaderGo k h) = Aws.lookupHeader k0 h := by
  induction h with
  | nil => rfl
  | cons p rest ih =>
    obtain ⟨pk, pv⟩ := p
    by_cases hp : pk = k
    · subst hp
      simp [Aws.removeHeaderGo, Aws.lookupHeader, hne, ih]
    · simp [Aws.removeHeaderGo, Aws.lookupHeader, hp, ih]

/-- Helper: the signing step never touches the anti-replay header entry. -/
theorem signWithPlus_lookup_iam_header (r : Aws.SignedRequest)
    (creds : Aws.AwsCredentials) :
    Aws.lookupHeader "x-vault-aws-iam-server-id" (r.signWithPlus creds).headers
      = Aws.lookupHeader "x-vault-aws-iam-server-id" r.headers := by
  have l1 : Aws.toLowerStr "x-amz-date" = "x-amz-date" := by decide
  have l2 : Aws.toLowerStr "x-amz-security-token" = "x-amz-security-token" := by decide
  have l3 : Aws.toLowerStr "content-type" = "content-type" := by decide
  have l4 : Aws.toLowerStr "x-amz-content-sha256" = "x-amz-content-sha256" := by decide
  have l5 : Aws.toLowerStr "host" = "host" := by decide
  have l6 : Aws.toLowerStr "content-length" = "content-length" := by decide
  have l7 : Aws.toLowerStr "authorization" = "authorization" := by decide
  have a1 : ∀ (v : String) (h : List (String × List String)),
      Aws.lookupHeader "x-vault-aws-iam-server-id" (Aws.addHeaderGo "x-amz-date" v h)
        = Aws.lookupHeader "x-vault-aws-iam-server-id" h :=
    fun v h => lookupHeader_addHeaderGo_ne _ v _ h (by decide)
  have a2 : ∀ (v : String) (h : List (String × List String)),
      Aws.lookupHeader "x-vault-aws-iam-server-id"
          (Aws.addHeaderGo "x-amz-security-token" v h)
        = Aws.lookupHeader "x-vault-aws-iam-server-id" h :=
    fun v h => lookupHeader_addHeaderGo_ne _ v _ h (by decide)
  have a3 : ∀ (v : String) (h : List (String × List String)),
      Aws.lookupHeader "x-vault-aws-iam-server-id" (Aws.addHeaderGo "content-type" v h)
        = Aws.lookupHeader "x-vault-aws-iam-server-id" h :=
    fun v h => lookupHeader_addHeaderGo_ne _ v _ h (by decide)
  have a4 : ∀ (v : String) (h : List (String × List String)),
      Aws.lookupHeader "x-vault-aws-iam-server-id"
          (Aws.addHeaderGo "x-amz-content-sha256" v h)
        = Aws.lookupHeader "x-vault-aws-iam-server-id" h :=
    fun v h => lookupHeader_addHeaderGo_ne _ v _ h (by decide)
  have a5 : ∀ (v : String) (h : List (String × List String)),
      Aws.lookupHeader "x-vault-aws-iam-server-id" (Aws.addHeaderGo "host" v h)
        = Aws.lookupHeader "x-vault-aws-iam-server-id" h :=
    fun v h => lookupHeader_addHeaderGo_ne _ v _ h (by decide)
  have a6 : ∀ (v : String) (h : List (String × List String)),
      Aws.lookupHeader "x-vault-aws-iam-server-id" (Aws.addHeaderGo "content-length" v h)
        = Aws.lookupHeader "x-vault-aws-iam-server-id" h :=
    fun v h => lookupHeader_addHeaderGo_ne _ v _ h (by decide)
  have a7 : ∀ (v : String) (h : List (String × List String)),
      Aws.lookupHeader "x-vault-aws-iam-server-id" (Aws.addHeaderGo "authorization" v h)
        = Aws.lookupHeader "x-vault-aws-iam-server-id" h :=
    fun v h => lookupHeader_addHeaderGo_ne _ v _ h (by decide)
  have r1 : ∀ h : List (String × List String),
      Aws.lookupHeader "x-vault-aws-iam-server-id" (Aws.removeHeaderGo "x-amz-date" h)
        = Aws.lookupHeader "x-vault-aws-iam-server-id" h :=
    fun h => lookupHeader_removeHeaderGo_ne _ _ h (by decide)
  have r2 : ∀ h : List (String × List String),
      Aws.lookupHeader "x-vault-aws-iam-server-id"
          (Aws.removeHeaderGo "x-amz-security-token" h)
        = Aws.lookupHeader "x-vault-aws-iam-server-id" h :=
    fun h => lookupHeader_removeHeaderGo_ne _ _ h (by decide)
  have r3 : ∀ h : List (String × List String),
      Aws.lookupHeader "x-vault-aws-iam-server-id" (Aws.removeHeaderGo "content-type" h)
        = Aws.lookupHeader "x-vault-aws-iam-server-id" h :=
    fun h => lookupHeader_removeHeaderGo_ne _ _ h (by decide)
  have r4 : ∀ h : List (String × List String),
      Aws.lookupHeader "x-vault-aws-iam-server-id"
          (Aws.removeHeaderGo "x-amz-content-sha256" h)
        = Aws.lookupHeader "x-vault-aws-iam-server-id" h :=
    fun h => lookupHeader_removeHeaderGo_ne _ _ h (by decide)
  have r5 : ∀ h : List (String × List String),
      Aws.lookupHeader "x-vault-aws-iam-server-id" (Aws.removeHeaderGo "host" h)
        = Aws.lookupHeader "x-vault-aws-iam-server-id" h :=
    fun h => lookupHeader_removeHeaderGo_ne _ _ h (by decide)
  have r6 : ∀ h : List (String × List String),
      Aws.lookupHeader "x-vault-aws-iam-server-id" (Aws.removeHeaderGo "content-length" h)
        = Aws.lookupHeader "x-vault-aws-iam-server-id" h :=
    fun h => lookupHeader_removeHeaderGo_ne _ _ h (by decide)
  have r7 : ∀ h : List (String × List String),
      Aws.lookupHeader "x-vault-aws-iam-server-id" (Aws.removeHeaderGo "authorization" h)
        = Aws.lookupHeader "x-vault-aws-iam-server-id" h :=
    fun h => lookupHeader_removeHeaderGo_ne _ _ h (by decide)
  rcases r with ⟨m, sv, rg, p, hs, pl, ct⟩
  rcases creds with ⟨k, s, tok⟩
  cases tok <;> cases ct <;> cases pl <;>
    simp [Aws.SignedRequest.signWithPlus, Aws.SignedRequest.addHeader,
      Aws.SignedRequest.removeHeader, l1, l2, l3, l4, l5, l6, l7,
      a1, a2, a3, a4, a5, a6, a7, r1, r2, r3, r4, r5, r6, r7]

/-- C6: a non-empty anti-replay header value appears in the pre-signing
request (before the signing step) and survives into the final payload header
map as exactly that value under the lower-cased fixed header name
`x-vault-aws-iam-server-id`; when the value is absent or empty, that header
is not present in the payload at all. -/
theorem payload_anti_replay_header (credentials : Aws.AwsCredentials)
    (rg : Option Aws.Region) (v : String) (hv : v ≠ "") :
    Aws.lookupHeader "x-vault-aws-iam-server-id"
        (Aws.vaultAwsAuthIamPresignRequest (some v) rg).headers = some [v] ∧
    Aws.lookupHeader "x-vault-aws-iam-server-id"
        (Aws.VaultAwsAuthIamPayload.new credentials (some v) rg).iam_request_headers
      = some [v] ∧
    Aws.lookupHeader "x-vault-aws-iam-server-id"
        (Aws.VaultAwsAuthIamPayload.new credentials none rg).iam_request_headers
      = none ∧
    Aws.lookupHeader "x-vault-aws-iam-server-id"
        (Aws.VaultAwsAuthIamPayload.new credentials (some "") rg).iam_request_headers
      = none := by
  have hlow : Aws.toLowerStr Aws.IAM_SERVER_ID_HEADER = "x-vault-aws-iam-server-id" := by
    decide
  have hpre : Aws.lookupHeader "x-vault-aws-iam-server-id"
      (Aws.vaultAwsAuthIamPresignRequest (some v) rg).headers = some [v] := by
    simp [Aws.vaultAwsAuthIamPresignRequest, Aws.SignedRequest.new,
      Aws.SignedRequest.setPayload, Aws.SignedRequest.setContentType,
      Aws.SignedRequest.addHeader, hv, hlow, Aws.addHeaderGo, Aws.lookupHeader]
  have hprenone : Aws.lookupHeader "x-vault-aws-iam-server-id"
      (Aws.vaultAwsAuthIamPresignRequest none rg).headers = none := by
    simp [Aws.vaultAwsAuthIamPresignRequest, Aws.SignedRequest.new,
      Aws.SignedRequest.setPayload, Aws.SignedRequest.setContentType,
      Aws.lookupHeader]
  have hpreempty : Aws.lookupHeader "x-vault-aws-iam-server-id"
      (Aws.vaultAwsAuthIamPresignRequest (some "") rg).headers = none := by
    simp [Aws.vaultAwsAuthIamPresignRequest, Aws.SignedRequest.new,
      Aws.SignedRequest.setPayload, Aws.SignedRequest.setContentType,
      Aws.lookupHeader]
  refine ⟨hpre, ?_, ?_, ?_⟩
  · simp only [Aws.VaultAwsAuthIamPayload.new]
    rw [signWithPlus_lookup_iam_header, hpre]
  · simp only [Aws.VaultAwsAuthIamPayload.new]
    rw [signWithPlus_lookup_iam_header, hprenone]
  · simp only [Aws.VaultAwsAuthIamPayload.new]
    rw [signWithPlus_lookup_iam_header, hpreempty]

/-- Witness for C6 at a concrete credential set, absent region and the
anti-replay value from the repository tests. -/
theorem payload_anti_replay_header_witness :
    Aws.lookupHeader "x-vault-aws-iam-server-id"
        (Aws.vaultAwsAuthIamPresignRequest (some "vault.example.com") none).headers
      = some ["vault.example.com"] ∧
    Aws.lookupHeader "x-vault-aws-iam-server-id"
        (Aws.VaultAwsAuthIamPayload.new ⟨"mock_key", "mock_secret", none⟩
          (some "vault.example.com") none).iam_request_headers
      = some ["vault.example.com"] ∧
    Aws.lookupHeader "x-vault-aws-iam-server-id"
        (Aws.VaultAwsAuthIamPayload.new ⟨"mock_key", "mock_secret", none⟩
          none none).iam_request_headers = none ∧
    Aws.lookupHeader "x-vault-aws-iam-server-id"
        (Aws.VaultAwsAuthIamPayload.new ⟨"mock_key", "mock_secret", none⟩
          (some "") none).iam_request_headers = none :=
  payload_anti_replay_header ⟨"mock_key", "mock_secret", none⟩ none
    "vault.example.com" (by decide)

end NomadDrain
